import Mathlib

/-!
Shallow embedding of the Genesys Cloud Terraform provider resource adapters
(integration actions, OAuth clients, integration credentials, IdP Generic,
phones, routing-queue and schedule-group data sources).  Pure request
builders and flatteners are translated directly; the stateful CRUD
operations are embedded as functions of an explicit server oracle that
answers each API call in order.  The shared retry helpers referenced by the
adapters are not among the given source files and are modelled from the
specification where noted.
-/

/-- Outcome of a single GET of an entity as observed by the provider code:
a 404, some other error carrying its message, or the entity together with
its state attribute. -/
inductive GetOutcome where
  | notFound
  | otherErr (msg : String)
  | found (st : String)
  deriving DecidableEq

/-- Result of one poll callback: nil (success), resource.RetryableError,
or resource.NonRetryableError. -/
inductive PollResult where
  | success
  | retryable (msg : String)
  | nonRetryable (msg : String)
  deriving DecidableEq

/-- Overall result of a CRUD operation: success, an immediate error, or a
bounded poll deadline that elapsed without reaching the expected state. -/
inductive OpResult where
  | ok
  | err (msg : String)
  | retryExhausted
  deriving DecidableEq

/-- Modelled from the spec: the helper withRetries is not among the given
source files (only its callers are).  Per the specification it runs the
poll callback with a fixed poll interval up to a bounded timeout and, when
the deadline elapses while the callback keeps returning a retryable error,
the operation fails as retryable-exhausted rather than hanging.  Time is
modelled as one poll per second of the timeout; the first component of the
result is the number of polls performed. -/
def withRetriesGo (step : Nat → PollResult) : Nat → Nat → Nat × OpResult
  | i, 0 => (i, OpResult.retryExhausted)
  | i, fuel + 1 =>
    match step i with
    | PollResult.success => (i + 1, OpResult.ok)
    | PollResult.nonRetryable m => (i + 1, OpResult.err m)
    | PollResult.retryable _ => withRetriesGo step (i + 1) fuel

/-- Modelled from the spec: bounded polling loop, see withRetriesGo. -/
def withRetries (timeoutSeconds : Nat) (step : Nat → PollResult) : OpResult :=
  (withRetriesGo step 0 timeoutSeconds).snd

/-- Server oracle for a delete operation: the response to the delete call
(none means success) and the response to the i-th confirmation GET. -/
structure DeleteServer where
  deleteResp : Option String
  getResp : Nat → GetOutcome

/-- Poll callback of deleteIntegrationAction: success on 404, non-retryable
on any other error, retryable while the action still exists. -/
def integrationActionDeletePoll (g : GetOutcome) : PollResult :=
  match g with
  | GetOutcome.notFound => PollResult.success
  | GetOutcome.otherErr m => PollResult.nonRetryable ("Error deleting integration action: " ++ m)
  | GetOutcome.found _ => PollResult.retryable "Integration action still exists"

/-- Poll callback of deleteCredential. -/
def credentialDeletePoll (g : GetOutcome) : PollResult :=
  match g with
  | GetOutcome.notFound => PollResult.success
  | GetOutcome.otherErr m => PollResult.nonRetryable ("Error deleting credential action: " ++ m)
  | GetOutcome.found _ => PollResult.retryable "Integration credential still exists"

/-- Poll callback of deleteIdpGeneric. -/
def idpGenericDeletePoll (g : GetOutcome) : PollResult :=
  match g with
  | GetOutcome.notFound => PollResult.success
  | GetOutcome.otherErr m => PollResult.nonRetryable ("Error deleting IDP Generic: " ++ m)
  | GetOutcome.found _ => PollResult.retryable "IDP Generic still exists"

/-- Poll callback of deletePhone: a phone is also gone once its state
attribute reports the terminal value deleted. -/
def phoneDeletePoll (g : GetOutcome) : PollResult :=
  match g with
  | GetOutcome.notFound => PollResult.success
  | GetOutcome.otherErr m => PollResult.nonRetryable ("Error deleting Phone: " ++ m)
  | GetOutcome.found st =>
    if st = "deleted" then PollResult.success
    else PollResult.retryable "Phone still exists"

/-- Poll callback of the confirmation loop in deleteOAuthClient: gone on 404
or once the client state reports the terminal value deleted. -/
def oauthClientDeletePoll (g : GetOutcome) : PollResult :=
  match g with
  | GetOutcome.notFound => PollResult.success
  | GetOutcome.otherErr m => PollResult.nonRetryable ("Error deleting OAuth client: " ++ m)
  | GetOutcome.found st =>
    if st = "deleted" then PollResult.success
    else PollResult.retryable "OAuth client still exists"

/-- deleteIntegrationAction: issue the delete call, then poll the GET
endpoint, bounded by the 30 second deadline. -/
def deleteIntegrationAction (srv : DeleteServer) : OpResult :=
  match srv.deleteResp with
  | some m => OpResult.err ("Failed to delete integration action: " ++ m)
  | none => withRetries 30 (fun i => integrationActionDeletePoll (srv.getResp i))

/-- deleteCredential: issue the delete call, then poll the GET endpoint,
bounded by the 30 second deadline. -/
def deleteCredential (srv : DeleteServer) : OpResult :=
  match srv.deleteResp with
  | some m => OpResult.err ("Failed to delete the credential: " ++ m)
  | none => withRetries 30 (fun i => credentialDeletePoll (srv.getResp i))

/-- deleteIdpGeneric: issue the delete call, then poll the GET endpoint,
bounded by the 30 second deadline. -/
def deleteIdpGeneric (srv : DeleteServer) : OpResult :=
  match srv.deleteResp with
  | some m => OpResult.err ("Failed to delete IDP Generic: " ++ m)
  | none => withRetries 30 (fun i => idpGenericDeletePoll (srv.getResp i))

/-- deletePhone: issue the delete call, then poll the GET endpoint,
bounded by the 30 second deadline. -/
def deletePhone (srv : DeleteServer) : OpResult :=
  match srv.deleteResp with
  | some m => OpResult.err ("Failed to delete phone: " ++ m)
  | none => withRetries 30 (fun i => phoneDeletePoll (srv.getResp i))

/-- Relevant attributes of the OAuth client resource data. -/
structure OAuthData where
  id : String
  name : String
  state : String

/-- Server oracle for the OAuth client delete flow: response to the
inactivating PUT, responses to the GETs of the read-back inside the update,
response to the delete call, and responses to the confirmation GETs. -/
structure OAuthServer where
  putResp : Option String
  readGet : Nat → GetOutcome
  deleteResp : Option String
  confirmGet : Nat → GetOutcome

/-- Poll callback of readOAuthClient: retryable on 404, non-retryable on any
other error, done once the client is returned. -/
def oauthClientReadPoll (g : GetOutcome) : PollResult :=
  match g with
  | GetOutcome.notFound => PollResult.retryable "Failed to read oauth client"
  | GetOutcome.otherErr m => PollResult.nonRetryable ("Failed to read oauth client: " ++ m)
  | GetOutcome.found _ => PollResult.success

/-- Modelled from the spec: the helper withRetriesForRead is not among the
given source files.  Per the specification a not-found result is treated as
transient during the post-create and post-update confirmation windows and
retried up to the bounded timeout, failing as retryable-exhausted when the
deadline elapses; during a routine refresh a not-found result instead clears
the entity from state (resets the resource id to empty) and succeeds.  The
result is the operation result, the final resource id and the number of
GETs performed. -/
def withRetriesForReadGo (step : Nat → PollResult) (id : String) :
    Nat → Nat → OpResult × String × Nat
  | i, 0 => (OpResult.retryExhausted, id, i)
  | i, fuel + 1 =>
    match step i with
    | PollResult.success => (OpResult.ok, id, i + 1)
    | PollResult.nonRetryable m => (OpResult.err m, id, i + 1)
    | PollResult.retryable _ => withRetriesForReadGo step id (i + 1) fuel

/-- Modelled from the spec: bounded read retry loop, see withRetriesForReadGo.
The flag records whether the read runs inside a post-mutation confirmation
window; a routine refresh performs a single GET. -/
def withRetriesForRead (inConfirmWindow : Bool) (timeoutSeconds : Nat)
    (step : Nat → PollResult) (id : String) : OpResult × String × Nat :=
  if inConfirmWindow then withRetriesForReadGo step id 0 timeoutSeconds
  else
    match step 0 with
    | PollResult.success => (OpResult.ok, id, 1)
    | PollResult.nonRetryable m => (OpResult.err m, id, 1)
    | PollResult.retryable _ => (OpResult.ok, "", 1)

/-- readOAuthClient: GET the client with bounded retries on 404, using the
30 second read deadline. -/
def readOAuthClient (inConfirmWindow : Bool) (get : Nat → GetOutcome)
    (id : String) : OpResult × String × Nat :=
  withRetriesForRead inConfirmWindow 30 (fun i => oauthClientReadPoll (get i)) id

/-- API calls issued by the OAuth client delete flow. -/
inductive OAuthCall where
  | put (state : String)
  | getClient
  | deleteClient
  deriving DecidableEq

/-- updateOAuthClient: PUT the client built from the resource data (carrying
its state attribute), then read it back inside the confirmation window.
Returns the result, the final resource id and the trace of API calls. -/
def updateOAuthClientT (d : OAuthData) (srv : OAuthServer) :
    OpResult × String × List OAuthCall :=
  match srv.putResp with
  | some m =>
    (OpResult.err ("Failed to update oauth client " ++ d.name ++ ": " ++ m), d.id,
      [OAuthCall.put d.state])
  | none =>
    let r := readOAuthClient true srv.readGet d.id
    (r.fst, r.snd.fst, OAuthCall.put d.state :: List.replicate r.snd.snd OAuthCall.getClient)

/-- deleteOAuthClient: set the state attribute to inactive, run the update
(which must succeed), and only then issue the delete call followed by the
bounded confirmation polling.  Returns the result and the trace of API
calls. -/
def deleteOAuthClientT (d : OAuthData) (srv : OAuthServer) :
    OpResult × List OAuthCall :=
  let u := updateOAuthClientT { d with state := "inactive" } srv
  match u.fst with
  | OpResult.ok =>
    match srv.deleteResp with
    | some m =>
      (OpResult.err ("Failed to delete oauth client " ++ d.name ++ ": " ++ m),
        u.snd.snd ++ [OAuthCall.deleteClient])
    | none =>
      let w := withRetriesGo (fun i => oauthClientDeletePoll (srv.confirmGet i)) 0 30
      (w.snd, u.snd.snd ++ OAuthCall.deleteClient :: List.replicate w.fst OAuthCall.getClient)
  | r => (r, u.snd.snd)

lemma withRetriesGo_all_retryable (step : Nat → PollResult)
    (h : ∀ i, ∃ m, step i = PollResult.retryable m) :
    ∀ (fuel i : Nat), withRetriesGo step i fuel = (i + fuel, OpResult.retryExhausted) := by
  intro fuel
  induction fuel with
  | zero => intro i; rfl
  | succ n ih =>
    intro i
    obtain ⟨m, hm⟩ := h i
    rw [withRetriesGo, hm, ih (i + 1)]
    exact congrArg (fun t => (t, OpResult.retryExhausted)) (by omega)

lemma withRetries_all_retryable (t : Nat) (step : Nat → PollResult)
    (h : ∀ i, ∃ m, step i = PollResult.retryable m) :
    withRetries t step = OpResult.retryExhausted := by
  unfold withRetries
  rw [withRetriesGo_all_retryable step h t 0]

lemma withRetries_first_success (t : Nat) (step : Nat → PollResult)
    (ht : 0 < t) (h : step 0 = PollResult.success) :
    withRetries t step = OpResult.ok := by
  unfold withRetries
  obtain ⟨u, rfl⟩ : ∃ u, t = u + 1 := ⟨t - 1, by omega⟩
  rw [withRetriesGo, h]

/-- C1: for every entity type supporting delete (integration action, OAuth
client, credential, IdP Generic, phone), the delete operation issues the API
delete call and then polls the GET endpoint until it returns 404 or (for
phones and OAuth clients) a terminal deleted state, bounded by the 30 second
deadline; if the entity still exists when the deadline elapses the operation
returns a retryable-exhausted failure, and a failed delete call short
circuits the operation before any polling. -/
theorem claim_c1_delete_then_bounded_poll :
    (∀ srv : DeleteServer, srv.deleteResp = none →
      (∀ i, ∃ st, srv.getResp i = GetOutcome.found st ∧ st ≠ "deleted") →
      (deleteIntegrationAction srv = OpResult.retryExhausted ∧
       deleteCredential srv = OpResult.retryExhausted ∧
       deleteIdpGeneric srv = OpResult.retryExhausted ∧
       deletePhone srv = OpResult.retryExhausted)) ∧
    (∀ (d : OAuthData) (osrv : OAuthServer), osrv.putResp = none →
      (∃ st, osrv.readGet 0 = GetOutcome.found st) →
      osrv.deleteResp = none →
      (∀ i, ∃ st, osrv.confirmGet i = GetOutcome.found st ∧ st ≠ "deleted") →
      (deleteOAuthClientT d osrv).fst = OpResult.retryExhausted) ∧
    (∀ srv : DeleteServer, srv.deleteResp = none →
      srv.getResp 0 = GetOutcome.notFound →
      (deleteIntegrationAction srv = OpResult.ok ∧
       deleteCredential srv = OpResult.ok ∧
       deleteIdpGeneric srv = OpResult.ok ∧
       deletePhone srv = OpResult.ok)) ∧
    (∀ srv : DeleteServer, srv.deleteResp = none →
      srv.getResp 0 = GetOutcome.found "deleted" →
      deletePhone srv = OpResult.ok) ∧
    (∀ (srv : DeleteServer) (m : String), srv.deleteResp = some m →
      deleteIntegrationAction srv =
        OpResult.err ("Failed to delete integration action: " ++ m) ∧
      deletePhone srv = OpResult.err ("Failed to delete phone: " ++ m)) := by
  refine ⟨?_, ?_, ?_, ?_, ?_⟩
  · intro srv hdel halive
    have hact : ∀ i, ∃ m, integrationActionDeletePoll (srv.getResp i) = PollResult.retryable m := by
      intro i
      obtain ⟨st, hst, _⟩ := halive i
      exact ⟨_, by rw [hst]; rfl⟩
    have hcred : ∀ i, ∃ m, credentialDeletePoll (srv.getResp i) = PollResult.retryable m := by
      intro i
      obtain ⟨st, hst, _⟩ := halive i
      exact ⟨_, by rw [hst]; rfl⟩
    have hidp : ∀ i, ∃ m, idpGenericDeletePoll (srv.getResp i) = PollResult.retryable m := by
      intro i
      obtain ⟨st, hst, _⟩ := halive i
      exact ⟨_, by rw [hst]; rfl⟩
    have hph : ∀ i, ∃ m, phoneDeletePoll (srv.getResp i) = PollResult.retryable m := by
      intro i
      obtain ⟨st, hst, hne⟩ := halive i
      exact ⟨"Phone still exists", by rw [hst]; simp [phoneDeletePoll, hne]⟩
    refine ⟨?_, ?_, ?_, ?_⟩ <;>
      simp only [deleteIntegrationAction, deleteCredential, deleteIdpGeneric, deletePhone, hdel]
    · exact withRetries_all_retryable 30 _ hact
    · exact withRetries_all_retryable 30 _ hcred
    · exact withRetries_all_retryable 30 _ hidp
    · exact withRetries_all_retryable 30 _ hph
  · intro d osrv hput ⟨st, hread⟩ hdel halive
    have hconf : ∀ i, ∃ m,
        oauthClientDeletePoll (osrv.confirmGet i) = PollResult.retryable m := by
      intro i
      obtain ⟨s, hs, hne⟩ := halive i
      exact ⟨"OAuth client still exists", by rw [hs]; simp [oauthClientDeletePoll, hne]⟩
    simp only [deleteOAuthClientT, updateOAuthClientT, hput, readOAuthClient,
      withRetriesForRead, withRetriesForReadGo, oauthClientReadPoll, hread, hdel]
    have := withRetriesGo_all_retryable
      (fun i => oauthClientDeletePoll (osrv.confirmGet i)) hconf 30 0
    simp [this]
  · intro srv hdel h404
    refine ⟨?_, ?_, ?_, ?_⟩ <;>
      simp only [deleteIntegrationAction, deleteCredential, deleteIdpGeneric, deletePhone, hdel] <;>
      exact withRetries_first_success 30 _ (by omega) (by
        rw [h404]; rfl)
  · intro srv hdel hdelstate
    simp only [deletePhone, hdel]
    exact withRetries_first_success 30 _ (by omega) (by
      rw [hdelstate]; simp [phoneDeletePoll])
  · intro srv m hm
    constructor <;> simp [deleteIntegrationAction, deletePhone, hm]

/-- Server whose entity never goes away: every confirmation GET returns the
entity in state active. -/
def aliveDeleteServer : DeleteServer :=
  { deleteResp := none, getResp := fun _ => GetOutcome.found "active" }

/-- Server that reports the entity gone on the first confirmation GET. -/
def goneDeleteServer : DeleteServer :=
  { deleteResp := none, getResp := fun _ => GetOutcome.notFound }

/-- Witness for C1 at concrete servers. -/
theorem claim_c1_delete_then_bounded_poll_witness :
    deletePhone aliveDeleteServer = OpResult.retryExhausted ∧
    deleteIntegrationAction goneDeleteServer = OpResult.ok :=
  ⟨(claim_c1_delete_then_bounded_poll.1 aliveDeleteServer rfl
      (fun _ => ⟨"active", rfl, by decide⟩)).2.2.2,
   (claim_c1_delete_then_bounded_poll.2.2.1 goneDeleteServer rfl rfl).1⟩

lemma updateOAuthClientT_trace (d : OAuthData) (srv : OAuthServer) :
    ∃ n, (updateOAuthClientT d srv).snd.snd =
      OAuthCall.put d.state :: List.replicate n OAuthCall.getClient := by
  unfold updateOAuthClientT
  cases h : srv.putResp with
  | some m => exact ⟨0, rfl⟩
  | none => exact ⟨_, rfl⟩

lemma deleteClient_not_mem_update_trace (d : OAuthData) (srv : OAuthServer) :
    OAuthCall.deleteClient ∉ (updateOAuthClientT d srv).snd.snd := by
  obtain ⟨n, hn⟩ := updateOAuthClientT_trace d srv
  rw [hn]
  simp [List.mem_replicate]

lemma mem_pre_of_append_eq {α : Type} {L rest pre post : List α} {x y : α}
    (hxL : x ∉ L) (hyL : y ∈ L)
    (heq : L ++ x :: rest = pre ++ x :: post) : y ∈ pre := by
  rcases List.append_eq_append_iff.mp heq with ⟨a, ha, _⟩ | ⟨c, hc, hx⟩
  · exact ha ▸ List.mem_append_left a hyL
  · cases c with
    | nil => simp only [List.append_nil] at hc; exact hc ▸ hyL
    | cons z c2 =>
      exfalso
      have hz : x = z := by
        have := hx
        simp only [List.cons_append] at this
        exact (List.cons.injEq _ _ _ _ ▸ this).1
      apply hxL
      rw [hc, ← hz]
      exact List.mem_append_right pre (List.mem_cons_self x c2)

/-- C2: deleting an OAuth client first sets the state attribute to inactive
and runs the update operation; the delete call is issued only after that
inactivating update completes successfully, never before. -/
theorem claim_c2_oauth_inactivate_before_delete :
    (∀ (d : OAuthData) (srv : OAuthServer),
      (deleteOAuthClientT d srv).snd.head? = some (OAuthCall.put "inactive")) ∧
    (∀ (d : OAuthData) (srv : OAuthServer),
      (updateOAuthClientT { d with state := "inactive" } srv).fst ≠ OpResult.ok →
      OAuthCall.deleteClient ∉ (deleteOAuthClientT d srv).snd) ∧
    (∀ (d : OAuthData) (srv : OAuthServer) (pre post : List OAuthCall),
      (deleteOAuthClientT d srv).snd = pre ++ OAuthCall.deleteClient :: post →
      OAuthCall.put "inactive" ∈ pre) := by
  refine ⟨?_, ?_, ?_⟩
  · intro d srv
    obtain ⟨n, hn⟩ := updateOAuthClientT_trace { d with state := "inactive" } srv
    rcases h1 : (updateOAuthClientT { d with state := "inactive" } srv).fst with _ | m <;>
      rcases h2 : srv.deleteResp with _ | m2 <;>
      simp [deleteOAuthClientT, h1, h2, hn]
  · intro d srv hne
    rcases h1 : (updateOAuthClientT { d with state := "inactive" } srv).fst with _ | m
    · exact absurd h1 hne
    · simp only [deleteOAuthClientT, h1]
      exact deleteClient_not_mem_update_trace _ srv
    · simp only [deleteOAuthClientT, h1]
      exact deleteClient_not_mem_update_trace _ srv
  · intro d srv pre post heq
    obtain ⟨n, hn⟩ := updateOAuthClientT_trace { d with state := "inactive" } srv
    have hput : OAuthCall.put "inactive" ∈
        (updateOAuthClientT { d with state := "inactive" } srv).snd.snd := by
      rw [hn]; exact List.mem_cons_self _ _
    have hnod := deleteClient_not_mem_update_trace { d with state := "inactive" } srv
    rcases h1 : (updateOAuthClientT { d with state := "inactive" } srv).fst with _ | m
    · rcases h2 : srv.deleteResp with _ | m2
      · simp only [deleteOAuthClientT, h1, h2] at heq
        exact mem_pre_of_append_eq hnod hput heq
      · simp only [deleteOAuthClientT, h1, h2] at heq
        exact mem_pre_of_append_eq hnod hput heq
    · simp only [deleteOAuthClientT, h1] at heq
      exact absurd (heq ▸ List.mem_append_right pre (List.mem_cons_self _ post)) hnod
    · simp only [deleteOAuthClientT, h1] at heq
      exact absurd (heq ▸ List.mem_append_right pre (List.mem_cons_self _ post)) hnod

/-- OAuth client resource data used by the witnesses. -/
def oauthDataW : OAuthData := { id := "client1", name := "my client", state := "active" }

/-- Server whose update PUT is rejected. -/
def oauthServerPutFails : OAuthServer :=
  { putResp := some "boom", readGet := fun _ => GetOutcome.found "inactive",
    deleteResp := none, confirmGet := fun _ => GetOutcome.notFound }

/-- Server on which the whole OAuth delete flow succeeds. -/
def oauthServerHappy : OAuthServer :=
  { putResp := none, readGet := fun _ => GetOutcome.found "inactive",
    deleteResp := none, confirmGet := fun _ => GetOutcome.notFound }

/-- Witness for C2 at concrete servers. -/
theorem claim_c2_oauth_inactivate_before_delete_witness :
    OAuthCall.deleteClient ∉ (deleteOAuthClientT oauthDataW oauthServerPutFails).snd ∧
    OAuthCall.put "inactive" ∈
      [OAuthCall.put "inactive", OAuthCall.getClient] :=
  ⟨claim_c2_oauth_inactivate_before_delete.2.1 oauthDataW oauthServerPutFails (by decide),
   claim_c2_oauth_inactivate_before_delete.2.2 oauthDataW oauthServerHappy
     [OAuthCall.put "inactive", OAuthCall.getClient] [OAuthCall.getClient] (by decide)⟩

lemma withRetriesForReadGo_all_retryable (step : Nat → PollResult) (id : String)
    (h : ∀ i, ∃ m, step i = PollResult.retryable m) :
    ∀ (fuel i : Nat),
      withRetriesForReadGo step id i fuel = (OpResult.retryExhausted, id, i + fuel) := by
  intro fuel
  induction fuel with
  | zero => intro i; rfl
  | succ n ih =>
    intro i
    obtain ⟨m, hm⟩ := h i
    rw [withRetriesForReadGo, hm, ih (i + 1)]
    exact congrArg (fun t => (OpResult.retryExhausted, id, t)) (by omega)

lemma withRetriesForReadGo_success (step : Nat → PollResult) (id : String) :
    ∀ (k fuel i : Nat), k < fuel →
    (∀ j, j < k → ∃ m, step (i + j) = PollResult.retryable m) →
    step (i + k) = PollResult.success →
    withRetriesForReadGo step id i fuel = (OpResult.ok, id, i + k + 1) := by
  intro k
  induction k with
  | zero =>
    intro fuel i hk hpre hsucc
    obtain ⟨f, rfl⟩ : ∃ f, fuel = f + 1 := ⟨fuel - 1, by omega⟩
    rw [withRetriesForReadGo]
    simp only [Nat.add_zero] at hsucc
    rw [hsucc]
  | succ k ih =>
    intro fuel i hk hpre hsucc
    obtain ⟨f, rfl⟩ : ∃ f, fuel = f + 1 := ⟨fuel - 1, by omega⟩
    obtain ⟨m, hm⟩ := hpre 0 (by omega)
    rw [withRetriesForReadGo]
    simp only [Nat.add_zero] at hm
    rw [hm]
    have hres := ih f (i + 1) (by omega)
      (fun j hj => by
        have := hpre (j + 1) (by omega)
        simpa [Nat.add_assoc, Nat.add_comm 1 j] using this)
      (by
        have : i + 1 + k = i + (k + 1) := by omega
        rw [this]; exact hsucc)
    rw [hres]
    exact congrArg (fun t => (OpResult.ok, id, t)) (by omega)

/-- C9: a read that finds the entity absent (404) outside a post-mutation
confirmation window clears the entity from state (resets the resource id to
empty) and returns success; inside the confirmation window a 404 is retried
with the bounded budget and surfaced as a retryable-exhausted failure only
when that budget is exhausted, and a retryable-exhausted result can only
arise inside the confirmation window. -/
theorem claim_c9_read_not_found_handling :
    (∀ (get : Nat → GetOutcome) (id : String), get 0 = GetOutcome.notFound →
      readOAuthClient false get id = (OpResult.ok, "", 1)) ∧
    (∀ (get : Nat → GetOutcome) (id : String), (∀ i, get i = GetOutcome.notFound) →
      readOAuthClient true get id = (OpResult.retryExhausted, id, 30)) ∧
    (∀ (w : Bool) (get : Nat → GetOutcome) (id : String),
      (readOAuthClient w get id).fst = OpResult.retryExhausted → w = true) ∧
    (∀ (get : Nat → GetOutcome) (id : String) (k : Nat), k < 30 →
      (∀ i, i < k → get i = GetOutcome.notFound) →
      (∃ st, get k = GetOutcome.found st) →
      readOAuthClient true get id = (OpResult.ok, id, k + 1)) := by
  refine ⟨?_, ?_, ?_, ?_⟩
  · intro get id h404
    simp [readOAuthClient, withRetriesForRead, oauthClientReadPoll, h404]
  · intro get id h404
    have h : ∀ i, ∃ m,
        oauthClientReadPoll (get i) = PollResult.retryable m := by
      intro i; rw [h404 i]; exact ⟨_, rfl⟩
    simp only [readOAuthClient, withRetriesForRead, if_pos]
    rw [withRetriesForReadGo_all_retryable _ id h 30 0]
  · intro w get id hres
    cases w with
    | true => rfl
    | false =>
      exfalso
      rcases hg : oauthClientReadPoll (get 0) with _ | m | m <;>
        simp [readOAuthClient, withRetriesForRead, hg] at hres
  · intro get id k hk hpre ⟨st, hst⟩
    have hsucc : oauthClientReadPoll (get (0 + k)) = PollResult.success := by
      simp only [Nat.zero_add]
      rw [hst]
      rfl
    have hpre2 : ∀ j, j < k → ∃ m,
        oauthClientReadPoll (get (0 + j)) = PollResult.retryable m := by
      intro j hj
      simp only [Nat.zero_add]
      rw [hpre j hj]
      exact ⟨_, rfl⟩
    simp only [readOAuthClient, withRetriesForRead, if_pos]
    rw [withRetriesForReadGo_success _ id k 30 0 hk hpre2 hsucc]
    simp

/-- Witness for C9: a routine refresh seeing a 404 clears the id and
succeeds, and a confirmation-window read against a server that never
returns the entity fails as retryable-exhausted. -/
theorem claim_c9_read_not_found_handling_witness :
    readOAuthClient false (fun _ => GetOutcome.notFound) "client1" = (OpResult.ok, "", 1) ∧
    readOAuthClient true (fun _ => GetOutcome.notFound) "client1" =
      (OpResult.retryExhausted, "client1", 30) :=
  ⟨claim_c9_read_not_found_handling.1 (fun _ => GetOutcome.notFound) "client1" rfl,
   claim_c9_read_not_found_handling.2.1 (fun _ => GetOutcome.notFound) "client1" (fun _ => rfl)⟩

/-- Outcome of a PATCH of an integration action. -/
inductive PatchOutcome where
  | ok
  | versionMismatch
  | otherErr (msg : String)
  deriving DecidableEq

/-- Server oracle for updateIntegrationAction: the version returned by the
i-th GET (or a read error) and the outcome of the i-th PATCH as a function
of the version supplied with it. -/
structure UpdateServer where
  getAction : Nat → Except String Nat
  patchAction : Nat → Nat → PatchOutcome

/-- Result of one attempt of the update closure. -/
inductive AttemptResult where
  | ok
  | versionMismatch
  | fail (msg : String)
  deriving DecidableEq

/-- One attempt of updateIntegrationAction: re-read the action to obtain the
latest version, then PATCH with that version. -/
def updateIntegrationActionAttempt (srv : UpdateServer) (i : Nat) : AttemptResult :=
  match srv.getAction i with
  | Except.error m => AttemptResult.fail ("Failed to read integration action: " ++ m)
  | Except.ok v =>
    match srv.patchAction i v with
    | PatchOutcome.ok => AttemptResult.ok
    | PatchOutcome.versionMismatch => AttemptResult.versionMismatch
    | PatchOutcome.otherErr m =>
      AttemptResult.fail ("Failed to update integration action: " ++ m)

/-- Modelled from the spec: the helper retryWhen and its predicate
isVersionMismatch are not among the given source files.  Per the
specification an update rejected due to version mismatch is retried
(each attempt re-reading the entity first), bounded by a small retry
count rather than unbounded; any other failure propagates immediately.
The first component of the result is the number of attempts performed. -/
def retryWhenGo (attempt : Nat → AttemptResult) : Nat → Nat → Nat × OpResult
  | i, 0 => (i, OpResult.err "version mismatch retries exhausted")
  | i, fuel + 1 =>
    match attempt i with
    | AttemptResult.ok => (i + 1, OpResult.ok)
    | AttemptResult.fail m => (i + 1, OpResult.err m)
    | AttemptResult.versionMismatch => retryWhenGo attempt (i + 1) fuel

/-- Modelled from the spec: the small bound on version-mismatch retries. -/
def retryWhenMaxAttempts : Nat := 5

/-- Modelled from the spec: bounded version-mismatch retry loop. -/
def retryWhen (attempt : Nat → AttemptResult) : Nat × OpResult :=
  retryWhenGo attempt 0 retryWhenMaxAttempts

/-- updateIntegrationAction: run the re-read-then-PATCH closure under the
version-mismatch retry policy. -/
def updateIntegrationAction (srv : UpdateServer) : Nat × OpResult :=
  retryWhen (updateIntegrationActionAttempt srv)

lemma retryWhenGo_all_mismatch (attempt : Nat → AttemptResult)
    (h : ∀ i, attempt i = AttemptResult.versionMismatch) :
    ∀ (fuel i : Nat), retryWhenGo attempt i fuel =
      (i + fuel, OpResult.err "version mismatch retries exhausted") := by
  intro fuel
  induction fuel with
  | zero => intro i; rfl
  | succ n ih =>
    intro i
    rw [retryWhenGo, h i, ih (i + 1)]
    exact congrArg (fun t => (t, OpResult.err "version mismatch retries exhausted")) (by omega)

/-- C3: an update rejected with a version mismatch re-reads the action to
obtain its latest version and retries the PATCH with that version, bounded
by a small retry count; when the only conflict is version staleness the
update succeeds after exactly one re-read-and-retry cycle (two attempts in
total), and perpetual mismatches exhaust the bounded retry budget. -/
theorem claim_c3_version_mismatch_retry :
    (∀ (srv : UpdateServer) (v0 v1 : Nat),
      srv.getAction 0 = Except.ok v0 →
      srv.patchAction 0 v0 = PatchOutcome.versionMismatch →
      srv.getAction 1 = Except.ok v1 →
      srv.patchAction 1 v1 = PatchOutcome.ok →
      updateIntegrationAction srv = (2, OpResult.ok)) ∧
    (∀ srv : UpdateServer,
      (∀ i, ∃ v, srv.getAction i = Except.ok v ∧
        srv.patchAction i v = PatchOutcome.versionMismatch) →
      updateIntegrationAction srv =
        (retryWhenMaxAttempts, OpResult.err "version mismatch retries exhausted")) := by
  constructor
  · intro srv v0 v1 hg0 hp0 hg1 hp1
    have h0 : updateIntegrationActionAttempt srv 0 = AttemptResult.versionMismatch := by
      simp [updateIntegrationActionAttempt, hg0, hp0]
    have h1 : updateIntegrationActionAttempt srv 1 = AttemptResult.ok := by
      simp [updateIntegrationActionAttempt, hg1, hp1]
    simp [updateIntegrationAction, retryWhen, retryWhenMaxAttempts,
      retryWhenGo, h0, h1]
  · intro srv h
    have hmm : ∀ i, updateIntegrationActionAttempt srv i = AttemptResult.versionMismatch := by
      intro i
      obtain ⟨v, hg, hp⟩ := h i
      simp [updateIntegrationActionAttempt, hg, hp]
    unfold updateIntegrationAction retryWhen
    rw [retryWhenGo_all_mismatch _ hmm retryWhenMaxAttempts 0]
    simp

/-- Server that is stale on the first attempt and consistent on the second:
the GET always reports the authoritative version, which is bumped by a
concurrent writer between the first GET and the first PATCH. -/
def staleOnceServer : UpdateServer :=
  { getAction := fun i => Except.ok i,
    patchAction := fun i v => if i = 0 then PatchOutcome.versionMismatch
      else if v = i then PatchOutcome.ok else PatchOutcome.versionMismatch }

/-- Witness for C3 at a concrete server. -/
theorem claim_c3_version_mismatch_retry_witness :
    updateIntegrationAction staleOnceServer = (2, OpResult.ok) :=
  claim_c3_version_mismatch_retry.1 staleOnceServer 0 1 rfl (by decide) rfl (by decide)

/-- User-supplied config_request block of an integration action. -/
structure ConfigRequest where
  request_url_template : String
  request_type : String
  request_template : String
  headers : List (String × String)
  deriving DecidableEq

/-- SDK Requestconfig wire structure: every field is a pointer, absent when
nil. -/
structure Requestconfig where
  requestUrlTemplate : Option String := none
  requestType : Option String := none
  requestTemplate : Option String := none
  headers : Option (List (String × String)) := none
  deriving DecidableEq

/-- Flattened config_request map: a key is present exactly when the
corresponding wire field was non-nil. -/
structure FlatConfigRequest where
  request_url_template : Option String
  request_type : Option String
  request_template : Option String
  headers : Option (List (String × String))
  deriving DecidableEq

/-- buildSdkActionConfigRequest: build the wire request from the first (and
only) element of the config_request list, setting all four fields; an empty
list yields the zero Requestconfig. -/
def buildSdkActionConfigRequest (configRequest : Option ConfigRequest) : Requestconfig :=
  match configRequest with
  | some c =>
    { requestUrlTemplate := some c.request_url_template,
      requestType := some c.request_type,
      requestTemplate := some c.request_template,
      headers := some c.headers }
  | none => {}

/-- flattenActionConfigRequest: copy every non-nil wire field into the
result map. -/
def flattenActionConfigRequest (r : Requestconfig) : FlatConfigRequest :=
  { request_url_template := r.requestUrlTemplate,
    request_type := r.requestType,
    request_template := r.requestTemplate,
    headers := r.headers }

/-- C6: flattening the SDK request structure built from a config_request
block returns every user-supplied field unchanged; in particular a config
with request_type GET reads back with request_type GET verbatim. -/
theorem claim_c6_config_request_round_trip :
    (∀ c : ConfigRequest,
      flattenActionConfigRequest (buildSdkActionConfigRequest (some c)) =
        { request_url_template := some c.request_url_template,
          request_type := some c.request_type,
          request_template := some c.request_template,
          headers := some c.headers }) ∧
    ((flattenActionConfigRequest (buildSdkActionConfigRequest (some
        { request_url_template := "https://example.com/api",
          request_type := "GET",
          request_template := "",
          headers := [] }))).request_type = some "GET") :=
  ⟨fun _ => rfl, rfl⟩

/-- buildOAuthScopes: GetOk reports false for an unset (empty) scopes set,
in which case the wire field stays nil. -/
def buildOAuthScopes (scopes : List String) : Option (List String) :=
  if scopes.isEmpty then none else some scopes

/-- buildOAuthRedirectURIs: GetOk reports false for an unset (empty) set of
redirect URIs, in which case the wire field stays nil. -/
def buildOAuthRedirectURIs (uris : List String) : Option (List String) :=
  if uris.isEmpty then none else some uris

/-- buildCredentialFields: the fields map is copied when set, but the
function returns a pointer to the (possibly empty) map on every path. -/
def buildCredentialFields (fields : List (String × String)) :
    Option (List (String × String)) :=
  if fields.isEmpty then some [] else some fields

/-- Attributes of the IdP Generic resource data; optional string attributes
hold the empty string when unset, matching the schema zero values. -/
structure IdpData where
  name : String
  issuer_uri : String
  target_uri : String
  relying_party_identifier : String
  disabled : Bool
  logo_image_data : String
  endpoint_compression : Bool
  name_identifier_format : String
  certificates : Option (List String)
  deriving DecidableEq

/-- SDK Genericsaml wire structure: every field is a pointer, absent when
nil. -/
structure Genericsaml where
  name : Option String := none
  issuerURI : Option String := none
  ssoTargetURI : Option String := none
  relyingPartyIdentifier : Option String := none
  disabled : Option Bool := none
  logoImageData : Option String := none
  endpointCompression : Option Bool := none
  nameIdentifierFormat : Option String := none
  certificate : Option String := none
  certificates : Option (List String) := none
  deriving DecidableEq

/-- updateIdpGeneric request builder: every scalar attribute is sent as a
present pointer; a single certificate is sent in the singular Certificate
field, otherwise the plural Certificates field is used. -/
def updateIdpGenericRequest (d : IdpData) : Genericsaml :=
  let update : Genericsaml :=
    { name := some d.name,
      issuerURI := some d.issuer_uri,
      ssoTargetURI := some d.target_uri,
      relyingPartyIdentifier := some d.relying_party_identifier,
      disabled := some d.disabled,
      logoImageData := some d.logo_image_data,
      endpointCompression := some d.endpoint_compression,
      nameIdentifierFormat := some d.name_identifier_format }
  match d.certificates with
  | none => update
  | some certs =>
    if certs.length = 1 then { update with certificate := certs.head? }
    else { update with certificates := some certs }

/-- readIdpGeneric certificate flattening: the singular Certificate field is
preferred; otherwise the plural Certificates field is used; otherwise the
set is absent. -/
def flattenIdpCertificates (g : Genericsaml) : Option (List String) :=
  match g.certificate with
  | some c => some [c]
  | none =>
    match g.certificates with
    | some cs => some cs
    | none => none

/-- C7 counterexample: credential fields left unset are still sent as a
present (empty) map, not as a nil pointer, so the claim that every unset
optional field of every request builder is absent fails on
buildCredentialFields. -/
theorem claim_c7_counterexample_credential_fields :
    buildCredentialFields [] = some [] ∧
    some ([] : List (String × String)) ≠ none :=
  ⟨rfl, by simp⟩

/-- C7 amended: OAuth scopes and redirect URIs are absent from the wire
request exactly when unset; credential fields however are always sent as a
present, possibly empty, map, and the optional scalar attributes of the IdP
Generic update are always sent as present pointers carrying their schema
zero value when unset. -/
theorem claim_c7_amended_optional_field_presence :
    (∀ s : List String, buildOAuthScopes s = none ↔ s = []) ∧
    (∀ u : List String, buildOAuthRedirectURIs u = none ↔ u = []) ∧
    (∀ s : List String, s ≠ [] → buildOAuthScopes s = some s) ∧
    (∀ f : List (String × String), buildCredentialFields f ≠ none) ∧
    buildCredentialFields [] = some [] ∧
    (∀ d : IdpData,
      (updateIdpGenericRequest d).ssoTargetURI = some d.target_uri ∧
      (updateIdpGenericRequest d).relyingPartyIdentifier = some d.relying_party_identifier ∧
      (updateIdpGenericRequest d).logoImageData = some d.logo_image_data) := by
  refine ⟨?_, ?_, ?_, ?_, ?_, ?_⟩
  · intro s; cases s <;> simp [buildOAuthScopes]
  · intro u; cases u <;> simp [buildOAuthRedirectURIs]
  · intro s hs; cases s with
    | nil => exact absurd rfl hs
    | cons a t => simp [buildOAuthScopes]
  · intro f; cases f <;> simp [buildCredentialFields]
  · rfl
  · intro d
    cases hc : d.certificates with
    | none => simp [updateIdpGenericRequest, hc]
    | some certs =>
      by_cases hl : certs.length = 1 <;>
        simp [updateIdpGenericRequest, hc, hl]

/-- Witness for the amended C7 at concrete inputs. -/
theorem claim_c7_amended_optional_field_presence_witness :
    buildOAuthScopes [] = none ∧
    buildOAuthScopes ["user-basic-info"] = some ["user-basic-info"] ∧
    buildCredentialFields [] ≠ none :=
  ⟨(claim_c7_amended_optional_field_presence.1 []).mpr rfl,
   claim_c7_amended_optional_field_presence.2.2.1 ["user-basic-info"] (by simp),
   claim_c7_amended_optional_field_presence.2.2.2.1 []⟩

/-- C10: an IdP Generic update with exactly one certificate sends it in the
singular Certificate field and leaves the plural field absent, an update
with two or more certificates sends the plural Certificates field, the read
path reconstructs the same certificate set from whichever field is present
preferring the singular one, and the set round-trips regardless of its
size. -/
theorem claim_c10_idp_certificates_round_trip :
    (∀ (d : IdpData) (certs : List String), d.certificates = some certs →
      (certs.length = 1 →
        (updateIdpGenericRequest d).certificate = certs.head? ∧
        (updateIdpGenericRequest d).certificates = none) ∧
      (2 ≤ certs.length →
        (updateIdpGenericRequest d).certificate = none ∧
        (updateIdpGenericRequest d).certificates = some certs) ∧
      flattenIdpCertificates (updateIdpGenericRequest d) = some certs) ∧
    (∀ (g : Genericsaml) (c : String), g.certificate = some c →
      flattenIdpCertificates g = some [c]) := by
  constructor
  · intro d certs hc
    refine ⟨?_, ?_, ?_⟩
    · intro hlen
      obtain ⟨c, hcer⟩ := List.length_eq_one.mp hlen
      subst hcer
      constructor <;> simp [updateIdpGenericRequest, hc]
    · intro hlen2
      have hlen : ¬ certs.length = 1 := by omega
      constructor <;> simp [updateIdpGenericRequest, hc, hlen]
    · by_cases hlen : certs.length = 1
      · obtain ⟨c, hcer⟩ := List.length_eq_one.mp hlen
        subst hcer
        simp [updateIdpGenericRequest, hc, flattenIdpCertificates]
      · simp [updateIdpGenericRequest, hc, hlen, flattenIdpCertificates]
  · intro g c hg
    simp [flattenIdpCertificates, hg]

/-- IdP Generic resource data used by the witnesses, with two
certificates. -/
def idpDataW : IdpData :=
  { name := "generic", issuer_uri := "https://issuer.example.com",
    target_uri := "", relying_party_identifier := "", disabled := false,
    logo_image_data := "", endpoint_compression := false,
    name_identifier_format := "urn:oasis:names:tc:SAML:1.1:nameid-format:unspecified",
    certificates := some ["certA", "certB"] }

/-- Witness for C10 at a concrete two-certificate configuration. -/
theorem claim_c10_idp_certificates_round_trip_witness :
    (updateIdpGenericRequest idpDataW).certificates = some ["certA", "certB"] ∧
    flattenIdpCertificates (updateIdpGenericRequest idpDataW) =
      some ["certA", "certB"] := by
  have h := claim_c10_idp_certificates_round_trip.1 idpDataW ["certA", "certB"] rfl
  exact ⟨(h.2.1 (by decide)).2, h.2.2⟩

/-- Fixed page size used by every paginated enumeration. -/
def pageSize : Nat := 100

/-- Go map insertion used by the exporters ResourceIDMetaMap: overwrite the
entry of an existing key, otherwise append the new entry. -/
def mapPut (m : List (String × String)) (k v : String) : List (String × String) :=
  if m.any (fun p => p.fst == k) then
    m.map (fun p => if p.fst == k then (k, v) else p)
  else m ++ [(k, v)]

/-- Integration action as listed by the paginated GET. -/
structure ActionEntity where
  id : String
  name : String
  deriving DecidableEq

/-- Integration credential as listed by the paginated GET; a credential may
have no name. -/
structure CredentialEntity where
  id : String
  name : Option String
  deriving DecidableEq

/-- Phone as listed by the paginated GET. -/
structure PhoneEntity where
  id : String
  name : String
  state : String
  deriving DecidableEq

/-- OAuth client as listed by the (single page) GET; the state pointer may
be nil. -/
structure OAuthClientEntity where
  id : String
  name : String
  state : Option String
  deriving DecidableEq

/-- getAllIntegrationActions keeps an action unless its id begins with the
prefix static. -/
def actionEntry (a : ActionEntity) : Option (String × String) :=
  if a.id.startsWith "static" then none else some (a.id, a.name)

/-- getAllCredentials keeps a credential only when it has a name. -/
def credentialEntry (c : CredentialEntity) : Option (String × String) :=
  match c.name with
  | some n => some (c.id, n)
  | none => none

/-- getAllPhones keeps a phone unless its state is deleted. -/
def phoneEntry (p : PhoneEntity) : Option (String × String) :=
  if p.state = "deleted" then none else some (p.id, p.name)

/-- getAllOAuthClients keeps a client unless its state is present and equals
disabled. -/
def oauthClientEntry (c : OAuthClientEntity) : Option (String × String) :=
  if c.state = some "disabled" then none else some (c.id, c.name)

/-- Accumulate one page of entities into the result map, in page order. -/
def pageStep {E : Type} (entry : E → Option (String × String)) (page : List E)
    (acc : List (String × String)) : List (String × String) :=
  page.foldl (fun a e =>
    match entry e with
    | none => a
    | some kv => mapPut a kv.fst kv.snd) acc

/-- Pagination loop shared by the three paginated exporters: request
successive page numbers starting from 1 and stop when a page returns a nil
or empty entity list; a request error aborts the enumeration.  The fuel
argument only bounds the recursion and is never reached when some page is
empty within it. -/
def pagedLoopGo {E : Type} (pages : Nat → Except String (Option (List E)))
    (entry : E → Option (String × String)) (failMsg : String) :
    Nat → List (String × String) → Nat → Except String (List (String × String))
  | _, acc, 0 => Except.ok acc
  | p, acc, fuel + 1 =>
    match pages p with
    | Except.error m => Except.error (failMsg ++ m)
    | Except.ok none => Except.ok acc
    | Except.ok (some es) =>
      if es.isEmpty then Except.ok acc
      else pagedLoopGo pages entry failMsg (p + 1) (pageStep entry es acc) fuel

/-- Page-number and page-size pairs requested by the pagination loop. -/
def pagedLoopReqsGo {E : Type} (pages : Nat → Except String (Option (List E))) :
    Nat → List (Nat × Nat) → Nat → List (Nat × Nat)
  | _, acc, 0 => acc
  | p, acc, fuel + 1 =>
    match pages p with
    | Except.error _ => acc ++ [(p, pageSize)]
    | Except.ok none => acc ++ [(p, pageSize)]
    | Except.ok (some es) =>
      if es.isEmpty then acc ++ [(p, pageSize)]
      else pagedLoopReqsGo pages (p + 1) (acc ++ [(p, pageSize)]) fuel

/-- getAllIntegrationActions: paginated enumeration of integration actions,
excluding actions whose id begins with static. -/
def getAllIntegrationActions (pages : Nat → Except String (Option (List ActionEntity)))
    (fuel : Nat) : Except String (List (String × String)) :=
  pagedLoopGo pages actionEntry "Failed to get page of integration actions: " 1 [] fuel

/-- Requests issued by getAllIntegrationActions. -/
def getAllIntegrationActionsReqs (pages : Nat → Except String (Option (List ActionEntity)))
    (fuel : Nat) : List (Nat × Nat) :=
  pagedLoopReqsGo pages 1 [] fuel

/-- getAllCredentials: paginated enumeration of credentials, skipping
credentials without a name. -/
def getAllCredentials (pages : Nat → Except String (Option (List CredentialEntity)))
    (fuel : Nat) : Except String (List (String × String)) :=
  pagedLoopGo pages credentialEntry "Failed to get page of credentials: " 1 [] fuel

/-- Requests issued by getAllCredentials. -/
def getAllCredentialsReqs (pages : Nat → Except String (Option (List CredentialEntity)))
    (fuel : Nat) : List (Nat × Nat) :=
  pagedLoopReqsGo pages 1 [] fuel

/-- getAllPhones: paginated enumeration of phones, excluding phones whose
state is deleted. -/
def getAllPhones (pages : Nat → Except String (Option (List PhoneEntity)))
    (fuel : Nat) : Except String (List (String × String)) :=
  pagedLoopGo pages phoneEntry "Failed to get page of phones: " 1 [] fuel

/-- Requests issued by getAllPhones. -/
def getAllPhonesReqs (pages : Nat → Except String (Option (List PhoneEntity)))
    (fuel : Nat) : List (Nat × Nat) :=
  pagedLoopReqsGo pages 1 [] fuel

/-- getAllOAuthClients: single unpaginated GET of all OAuth clients,
excluding clients whose state is disabled. -/
def getAllOAuthClients (resp : Except String (Option (List OAuthClientEntity))) :
    Except String (List (String × String)) :=
  match resp with
  | Except.error m => Except.error ("Failed to get page of oauth clients: " ++ m)
  | Except.ok none => Except.ok []
  | Except.ok (some cs) => Except.ok (pageStep oauthClientEntry cs [])

/-- Entities of the nonempty pages 1..n. -/
def pageAt {E : Type} (pages : Nat → Except String (Option (List E))) (p : Nat) : List E :=
  match pages p with
  | Except.ok (some es) => es
  | _ => []

/-- All entities returned by the fetched nonempty pages, in order. -/
def fetchedEntities {E : Type} (pages : Nat → Except String (Option (List E)))
    (n : Nat) : List E :=
  ((List.range' 1 n).map (pageAt pages)).flatten

lemma mapPut_not_mem (m : List (String × String)) (k v : String)
    (h : k ∉ m.map Prod.fst) : mapPut m k v = m ++ [(k, v)] := by
  have hany : ¬ (m.any (fun p => p.fst == k) = true) := by
    simp only [List.any_eq_true, beq_iff_eq, not_exists]
    intro p hp
    rcases hp with ⟨hpm, hpk⟩
    exact h (hpk ▸ List.mem_map_of_mem Prod.fst hpm)
  simp [mapPut, hany]

lemma mapPut_keys_nodup (m : List (String × String)) (k v : String)
    (h : (m.map Prod.fst).Nodup) : ((mapPut m k v).map Prod.fst).Nodup := by
  by_cases hk : k ∈ m.map Prod.fst
  · have hcond : m.any (fun p => p.fst == k) = true := by
      simp only [List.any_eq_true, beq_iff_eq]
      obtain ⟨p, hpm, hpk⟩ := List.mem_map.mp hk
      exact ⟨p, hpm, hpk⟩
    have hkeys : (mapPut m k v).map Prod.fst = m.map Prod.fst := by
      simp only [mapPut, hcond, if_true, List.map_map]
      apply List.map_congr_left
      intro p _
      by_cases hp : p.fst = k
      · simp [Function.comp, hp]
      · simp [Function.comp, hp]
    rw [hkeys]
    exact h
  · rw [mapPut_not_mem m k v hk]
    rw [List.map_append]
    rw [List.nodup_append]
    refine ⟨h, List.nodup_singleton k, ?_⟩
    intro a ha hb
    simp only [List.map_cons, List.map_nil, List.mem_singleton] at hb
    exact hk (hb ▸ ha)

lemma pageStep_run {E : Type} (entry : E → Option (String × String)) :
    ∀ (L : List E) (acc : List (String × String)),
      ((L.filterMap entry).map Prod.fst).Nodup →
      (∀ kv ∈ L.filterMap entry, kv.fst ∉ acc.map Prod.fst) →
      pageStep entry L acc = acc ++ L.filterMap entry := by
  intro L
  induction L with
  | nil => intro acc _ _; simp [pageStep]
  | cons e t ih =>
    intro acc hnd hfresh
    cases he : entry e with
    | none =>
      have hfm : (e :: t).filterMap entry = t.filterMap entry := by
        simp [List.filterMap_cons, he]
      rw [hfm] at hnd hfresh
      simpa [pageStep, he] using ih acc hnd hfresh
    | some kv =>
      have hfm : (e :: t).filterMap entry = kv :: t.filterMap entry := by
        simp [List.filterMap_cons, he]
      rw [hfm] at hnd hfresh
      have hkv := hfresh kv (List.mem_cons_self kv _)
      have hstep : mapPut acc kv.fst kv.snd = acc ++ [kv] := by
        rw [mapPut_not_mem acc kv.fst kv.snd hkv]
      have hnd2 : ((t.filterMap entry).map Prod.fst).Nodup := by
        simp only [List.map_cons, List.nodup_cons] at hnd
        exact hnd.2
      have hknd : kv.fst ∉ (t.filterMap entry).map Prod.fst := by
        simp only [List.map_cons, List.nodup_cons] at hnd
        exact hnd.1
      have hfresh2 : ∀ kv2 ∈ t.filterMap entry, kv2.fst ∉ (acc ++ [kv]).map Prod.fst := by
        intro kv2 hkv2
        rw [List.map_append]
        rw [List.mem_append]
        rintro (hacc | hsing)
        · exact hfresh kv2 (List.mem_cons_of_mem kv hkv2) hacc
        · simp only [List.map_cons, List.map_nil, List.mem_singleton] at hsing
          exact hknd (hsing ▸ List.mem_map_of_mem Prod.fst hkv2)
      have hrec := ih (acc ++ [kv]) hnd2 hfresh2
      simp only [pageStep, List.foldl_cons, he, hstep] at hrec ⊢
      rw [hrec, hfm]
      simp

lemma pageStep_keys_nodup {E : Type} (entry : E → Option (String × String)) :
    ∀ (L : List E) (acc : List (String × String)),
      (acc.map Prod.fst).Nodup → ((pageStep entry L acc).map Prod.fst).Nodup := by
  intro L
  induction L with
  | nil => intro acc h; simpa [pageStep] using h
  | cons e t ih =>
    intro acc h
    cases he : entry e with
    | none => simpa [pageStep, he] using ih acc h
    | some kv =>
      have := ih (mapPut acc kv.fst kv.snd) (mapPut_keys_nodup acc kv.fst kv.snd h)
      simpa [pageStep, he] using this

lemma pagedLoopGo_run {E : Type} (pages : Nat → Except String (Option (List E)))
    (entry : E → Option (String × String)) (failMsg : String) :
    ∀ (n fuel start : Nat) (acc : List (String × String)),
      n < fuel →
      (pages (start + n) = Except.ok none ∨ pages (start + n) = Except.ok (some [])) →
      (∀ k, k < n → ∃ es, pages (start + k) = Except.ok (some es) ∧ es ≠ []) →
      pagedLoopGo pages entry failMsg start acc fuel =
        Except.ok (List.foldl (fun a p => pageStep entry (pageAt pages p) a) acc
          (List.range' start n)) := by
  intro n
  induction n with
  | zero =>
    intro fuel start acc hfuel hstop _
    obtain ⟨f, rfl⟩ : ∃ f, fuel = f + 1 := ⟨fuel - 1, by omega⟩
    simp only [Nat.add_zero] at hstop
    rcases hstop with hstop | hstop <;>
      simp [pagedLoopGo, hstop, List.range']
  | succ m ih =>
    intro fuel start acc hfuel hstop hpages
    obtain ⟨f, rfl⟩ : ∃ f, fuel = f + 1 := ⟨fuel - 1, by omega⟩
    obtain ⟨es, hes, hne⟩ := hpages 0 (by omega)
    simp only [Nat.add_zero] at hes
    have hemp : es.isEmpty = false := by
      cases es with
      | nil => exact absurd rfl hne
      | cons a t => rfl
    have hstep_eq : pagedLoopGo pages entry failMsg start acc (f + 1) =
        pagedLoopGo pages entry failMsg (start + 1) (pageStep entry es acc) f := by
      simp [pagedLoopGo, hes, hemp]
    have hrec := ih f (start + 1) (pageStep entry es acc) (by omega)
      (by
        have harith : start + 1 + m = start + (m + 1) := by omega
        rw [harith]; exact hstop)
      (fun k hk => by
        have harith : start + 1 + k = start + (k + 1) := by omega
        rw [harith]; exact hpages (k + 1) (by omega))
    have hpa : pageAt pages start = es := by simp [pageAt, hes]
    rw [hstep_eq, hrec, List.range'_succ]
    simp [List.foldl_cons, hpa]

lemma pagedLoopReqsGo_run {E : Type} (pages : Nat → Except String (Option (List E))) :
    ∀ (n fuel start : Nat) (acc : List (Nat × Nat)),
      n < fuel →
      (pages (start + n) = Except.ok none ∨ pages (start + n) = Except.ok (some [])) →
      (∀ k, k < n → ∃ es, pages (start + k) = Except.ok (some es) ∧ es ≠ []) →
      pagedLoopReqsGo pages start acc fuel =
        acc ++ (List.range' start (n + 1)).map (fun p => (p, pageSize)) := by
  intro n
  induction n with
  | zero =>
    intro fuel start acc hfuel hstop _
    obtain ⟨f, rfl⟩ : ∃ f, fuel = f + 1 := ⟨fuel - 1, by omega⟩
    simp only [Nat.add_zero] at hstop
    rcases hstop with hstop | hstop <;>
      simp [pagedLoopReqsGo, hstop, List.range']
  | succ m ih =>
    intro fuel start acc hfuel hstop hpages
    obtain ⟨f, rfl⟩ : ∃ f, fuel = f + 1 := ⟨fuel - 1, by omega⟩
    obtain ⟨es, hes, hne⟩ := hpages 0 (by omega)
    simp only [Nat.add_zero] at hes
    have hemp : es.isEmpty = false := by
      cases es with
      | nil => exact absurd rfl hne
      | cons a t => rfl
    have hstep_eq : pagedLoopReqsGo pages start acc (f + 1) =
        pagedLoopReqsGo pages (start + 1) (acc ++ [(start, pageSize)]) f := by
      simp [pagedLoopReqsGo, hes, hemp]
    have hrec := ih f (start + 1) (acc ++ [(start, pageSize)]) (by omega)
      (by
        have harith : start + 1 + m = start + (m + 1) := by omega
        rw [harith]; exact hstop)
      (fun k hk => by
        have harith : start + 1 + k = start + (k + 1) := by omega
        rw [harith]; exact hpages (k + 1) (by omega))
    rw [hstep_eq, hrec, List.append_assoc]
    congr 1

lemma pagedLoopGo_keys_nodup {E : Type} (pages : Nat → Except String (Option (List E)))
    (entry : E → Option (String × String)) (failMsg : String) :
    ∀ (fuel start : Nat) (acc m : List (String × String)),
      (acc.map Prod.fst).Nodup →
      pagedLoopGo pages entry failMsg start acc fuel = Except.ok m →
      (m.map Prod.fst).Nodup := by
  intro fuel
  induction fuel with
  | zero =>
    intro start acc m h heq
    simp only [pagedLoopGo, Except.ok.injEq] at heq
    exact heq ▸ h
  | succ f ih =>
    intro start acc m h heq
    rcases hp : pages start with msg | op
    · simp [pagedLoopGo, hp] at heq
    · cases op with
      | none =>
        simp only [pagedLoopGo, hp, Except.ok.injEq] at heq
        exact heq ▸ h
      | some es =>
        by_cases hemp : es.isEmpty = true
        · simp only [pagedLoopGo, hp, hemp, if_true, Except.ok.injEq] at heq
          exact heq ▸ h
        · simp only [pagedLoopGo, hp, hemp, if_false] at heq
          exact ih (start + 1) (pageStep entry es acc) m
            (pageStep_keys_nodup entry es acc h) heq

lemma foldl_pageStep_flatten {E : Type} (entry : E → Option (String × String)) :
    ∀ (Ls : List (List E)) (acc : List (String × String)),
      List.foldl (fun a L => pageStep entry L a) acc Ls =
        pageStep entry Ls.flatten acc := by
  intro Ls
  induction Ls with
  | nil => intro acc; rfl
  | cons L Ls ih =>
    intro acc
    simp only [List.foldl_cons, List.flatten_cons]
    rw [ih (pageStep entry L acc)]
    unfold pageStep
    rw [List.foldl_append]

lemma getAllPaged_run {E : Type} (pages : Nat → Except String (Option (List E)))
    (entry : E → Option (String × String)) (failMsg : String) (n fuel : Nat)
    (hfuel : n < fuel)
    (hstop : pages (1 + n) = Except.ok none ∨ pages (1 + n) = Except.ok (some []))
    (hpages : ∀ k, k < n → ∃ es, pages (1 + k) = Except.ok (some es) ∧ es ≠ [])
    (hkeys : (((fetchedEntities pages n).filterMap entry).map Prod.fst).Nodup) :
    pagedLoopGo pages entry failMsg 1 [] fuel =
      Except.ok ((fetchedEntities pages n).filterMap entry) ∧
    pagedLoopReqsGo pages 1 [] fuel =
      (List.range' 1 (n + 1)).map (fun p => (p, pageSize)) := by
  constructor
  · rw [pagedLoopGo_run pages entry failMsg n fuel 1 [] hfuel hstop hpages]
    congr 1
    have h1 : List.foldl (fun a p => pageStep entry (pageAt pages p) a) [] (List.range' 1 n)
        = pageStep entry (fetchedEntities pages n) [] := by
      rw [← List.foldl_map (pageAt pages) (fun a L => pageStep entry L a) (List.range' 1 n) []]
      exact foldl_pageStep_flatten entry ((List.range' 1 n).map (pageAt pages)) []
    rw [h1]
    rw [pageStep_run entry (fetchedEntities pages n) [] hkeys (by intro kv _; simp)]
    simp
  · simpa using pagedLoopReqsGo_run pages n fuel 1 [] hfuel hstop hpages

/-- Pagination loop exactly as claim C4 words it (this definition follows
the claim for comparison with the source, not the source): the loop
terminates as soon as a page returns fewer entities than the requested page
size or an empty or absent entity list. -/
def claimPagedLoopGo {E : Type} (pages : Nat → Except String (Option (List E)))
    (entry : E → Option (String × String)) :
    Nat → List (String × String) → Nat → Except String (List (String × String))
  | _, acc, 0 => Except.ok acc
  | p, acc, fuel + 1 =>
    match pages p with
    | Except.error m => Except.error m
    | Except.ok none => Except.ok acc
    | Except.ok (some es) =>
      if es.isEmpty then Except.ok acc
      else if es.length < pageSize then Except.ok (pageStep entry es acc)
      else claimPagedLoopGo pages entry (p + 1) (pageStep entry es acc) fuel

/-- Requests issued under the claim-worded termination rule. -/
def claimPagedLoopReqsGo {E : Type} (pages : Nat → Except String (Option (List E))) :
    Nat → List (Nat × Nat) → Nat → List (Nat × Nat)
  | _, acc, 0 => acc
  | p, acc, fuel + 1 =>
    match pages p with
    | Except.error _ => acc ++ [(p, pageSize)]
    | Except.ok none => acc ++ [(p, pageSize)]
    | Except.ok (some es) =>
      if es.isEmpty then acc ++ [(p, pageSize)]
      else if es.length < pageSize then acc ++ [(p, pageSize)]
      else claimPagedLoopReqsGo pages (p + 1) (acc ++ [(p, pageSize)]) fuel

/-- getAllIntegrationActions as claim C4 words its termination. -/
def claimGetAllIntegrationActions
    (pages : Nat → Except String (Option (List ActionEntity)))
    (fuel : Nat) : Except String (List (String × String)) :=
  claimPagedLoopGo pages actionEntry 1 [] fuel

/-- Requests of getAllIntegrationActions under the claim-worded rule. -/
def claimGetAllIntegrationActionsReqs
    (pages : Nat → Except String (Option (List ActionEntity)))
    (fuel : Nat) : List (Nat × Nat) :=
  claimPagedLoopReqsGo pages 1 [] fuel

/-- Server whose first and second pages each hold a single action (fewer
than the page size) and whose third page is absent. -/
def shortPages : Nat → Except String (Option (List ActionEntity)) :=
  fun p =>
    if p = 1 then Except.ok (some [{ id := "a1", name := "Action One" }])
    else if p = 2 then Except.ok (some [{ id := "a2", name := "Action Two" }])
    else Except.ok none

/-- C4 counterexample: the pagination loop in the source does not terminate
as soon as a page returns fewer entities than the requested page size; on a
server whose page 1 holds one action and whose page 2 holds another, the
code requests pages 1, 2 and 3 and returns both actions, whereas the
claim-worded rule would stop after page 1 and return only the first
action. -/
theorem claim_c4_counterexample_short_page :
    getAllIntegrationActions shortPages 10 =
      Except.ok [("a1", "Action One"), ("a2", "Action Two")] ∧
    getAllIntegrationActionsReqs shortPages 10 = [(1, 100), (2, 100), (3, 100)] ∧
    claimGetAllIntegrationActions shortPages 10 = Except.ok [("a1", "Action One")] ∧
    claimGetAllIntegrationActionsReqs shortPages 10 = [(1, 100)] ∧
    ([("a1", "Action One"), ("a2", "Action Two")] : List (String × String)) ≠
      [("a1", "Action One")] :=
  ⟨rfl, rfl, rfl, rfl, by decide⟩

/-- C4 amended: each paginated enumeration (getAllIntegrationActions,
getAllCredentials, getAllPhones) requests successive page numbers with the
fixed page size 100 and terminates at the first page whose entity list is
absent or empty (a page with fewer entities than requested does not by
itself stop the loop); the result accumulates every entity of every fetched
page minus the explicit exclusions, keyed by id, and never contains a
duplicate key. -/
theorem claim_c4_amended_pagination :
    (∀ (pages : Nat → Except String (Option (List ActionEntity))) (n fuel : Nat),
      n < fuel →
      (pages (1 + n) = Except.ok none ∨ pages (1 + n) = Except.ok (some [])) →
      (∀ k, k < n → ∃ es, pages (1 + k) = Except.ok (some es) ∧ es ≠ []) →
      (((fetchedEntities pages n).filterMap actionEntry).map Prod.fst).Nodup →
      getAllIntegrationActions pages fuel =
        Except.ok ((fetchedEntities pages n).filterMap actionEntry) ∧
      getAllIntegrationActionsReqs pages fuel =
        (List.range' 1 (n + 1)).map (fun p => (p, pageSize))) ∧
    (∀ (pages : Nat → Except String (Option (List CredentialEntity))) (n fuel : Nat),
      n < fuel →
      (pages (1 + n) = Except.ok none ∨ pages (1 + n) = Except.ok (some [])) →
      (∀ k, k < n → ∃ es, pages (1 + k) = Except.ok (some es) ∧ es ≠ []) →
      (((fetchedEntities pages n).filterMap credentialEntry).map Prod.fst).Nodup →
      getAllCredentials pages fuel =
        Except.ok ((fetchedEntities pages n).filterMap credentialEntry) ∧
      getAllCredentialsReqs pages fuel =
        (List.range' 1 (n + 1)).map (fun p => (p, pageSize))) ∧
    (∀ (pages : Nat → Except String (Option (List PhoneEntity))) (n fuel : Nat),
      n < fuel →
      (pages (1 + n) = Except.ok none ∨ pages (1 + n) = Except.ok (some [])) →
      (∀ k, k < n → ∃ es, pages (1 + k) = Except.ok (some es) ∧ es ≠ []) →
      (((fetchedEntities pages n).filterMap phoneEntry).map Prod.fst).Nodup →
      getAllPhones pages fuel =
        Except.ok ((fetchedEntities pages n).filterMap phoneEntry) ∧
      getAllPhonesReqs pages fuel =
        (List.range' 1 (n + 1)).map (fun p => (p, pageSize))) ∧
    (∀ (pages : Nat → Except String (Option (List ActionEntity))) (fuel : Nat)
      (m : List (String × String)),
      getAllIntegrationActions pages fuel = Except.ok m → (m.map Prod.fst).Nodup) ∧
    (∀ (pages : Nat → Except String (Option (List CredentialEntity))) (fuel : Nat)
      (m : List (String × String)),
      getAllCredentials pages fuel = Except.ok m → (m.map Prod.fst).Nodup) ∧
    (∀ (pages : Nat → Except String (Option (List PhoneEntity))) (fuel : Nat)
      (m : List (String × String)),
      getAllPhones pages fuel = Except.ok m → (m.map Prod.fst).Nodup) := by
  refine ⟨?_, ?_, ?_, ?_, ?_, ?_⟩
  · intro pages n fuel hfuel hstop hpages hkeys
    exact getAllPaged_run pages actionEntry _ n fuel hfuel hstop hpages hkeys
  · intro pages n fuel hfuel hstop hpages hkeys
    exact getAllPaged_run pages credentialEntry _ n fuel hfuel hstop hpages hkeys
  · intro pages n fuel hfuel hstop hpages hkeys
    exact getAllPaged_run pages phoneEntry _ n fuel hfuel hstop hpages hkeys
  · intro pages fuel m heq
    exact pagedLoopGo_keys_nodup pages actionEntry _ fuel 1 [] m (by simp) heq
  · intro pages fuel m heq
    exact pagedLoopGo_keys_nodup pages credentialEntry _ fuel 1 [] m (by simp) heq
  · intro pages fuel m heq
    exact pagedLoopGo_keys_nodup pages phoneEntry _ fuel 1 [] m (by simp) heq

/-- Phone server used by the pagination witness: two nonempty pages, the
second holding a deleted phone, then an absent page. -/
def phonePagesW : Nat → Except String (Option (List PhoneEntity)) :=
  fun p =>
    if p = 1 then Except.ok (some
      [{ id := "p1", name := "Phone One", state := "active" },
       { id := "p2", name := "Phone Two", state := "active" }])
    else if p = 2 then
      Except.ok (some [{ id := "p3", name := "Phone Three", state := "deleted" }])
    else Except.ok none

/-- Witness for the amended C4 at a concrete phone server. -/
theorem claim_c4_amended_pagination_witness :
    getAllPhones phonePagesW 5 =
      Except.ok ((fetchedEntities phonePagesW 2).filterMap phoneEntry) ∧
    getAllPhonesReqs phonePagesW 5 =
      (List.range' 1 3).map (fun p => (p, pageSize)) :=
  claim_c4_amended_pagination.2.2.1 phonePagesW 2 5 (by omega)
    (Or.inl rfl)
    (fun k hk => by
      interval_cases k
      · exact ⟨_, rfl, by decide⟩
      · exact ⟨_, rfl, by decide⟩)
    (by decide)

lemma actionEntry_eq_some (a : ActionEntity) (id nm : String) :
    actionEntry a = some (id, nm) ↔
      a.id = id ∧ a.name = nm ∧ a.id.startsWith "static" = false := by
  unfold actionEntry
  by_cases hs : a.id.startsWith "static"
  · constructor
    · intro h; simp [hs] at h
    · rintro ⟨_, _, hfalse⟩; rw [hs] at hfalse; cases hfalse
  · simp only [if_neg hs, Option.some.injEq, Prod.mk.injEq]
    constructor
    · rintro ⟨h1, h2⟩; exact ⟨h1, h2, by simpa using hs⟩
    · rintro ⟨h1, h2, _⟩; exact ⟨h1, h2⟩

lemma oauthClientEntry_eq_some (c : OAuthClientEntity) (id nm : String) :
    oauthClientEntry c = some (id, nm) ↔
      c.id = id ∧ c.name = nm ∧ c.state ≠ some "disabled" := by
  unfold oauthClientEntry
  by_cases hs : c.state = some "disabled"
  · constructor
    · intro h; simp [hs] at h
    · rintro ⟨_, _, hne⟩; exact absurd hs hne
  · simp only [if_neg hs, Option.some.injEq, Prod.mk.injEq]
    constructor
    · rintro ⟨h1, h2⟩; exact ⟨h1, h2, hs⟩
    · rintro ⟨h1, h2, _⟩; exact ⟨h1, h2⟩

lemma phoneEntry_eq_some (p : PhoneEntity) (id nm : String) :
    phoneEntry p = some (id, nm) ↔
      p.id = id ∧ p.name = nm ∧ p.state ≠ "deleted" := by
  unfold phoneEntry
  by_cases hs : p.state = "deleted"
  · constructor
    · intro h; simp [hs] at h
    · rintro ⟨_, _, hne⟩; exact absurd hs hne
  · simp only [if_neg hs, Option.some.injEq, Prod.mk.injEq]
    constructor
    · rintro ⟨h1, h2⟩; exact ⟨h1, h2, hs⟩
    · rintro ⟨h1, h2, _⟩; exact ⟨h1, h2⟩

/-- C5: the bulk enumerations exclude exactly the system-owned or synthetic
entities: getAllIntegrationActions omits exactly the actions whose id begins
with static, getAllOAuthClients omits exactly the clients whose state equals
disabled, getAllPhones omits exactly the phones whose state equals deleted;
every other listed entity appears in the result keyed by its id with its
name. -/
theorem claim_c5_exclusions :
    (∀ (pages : Nat → Except String (Option (List ActionEntity))) (n fuel : Nat),
      n < fuel →
      (pages (1 + n) = Except.ok none ∨ pages (1 + n) = Except.ok (some [])) →
      (∀ k, k < n → ∃ es, pages (1 + k) = Except.ok (some es) ∧ es ≠ []) →
      (((fetchedEntities pages n).filterMap actionEntry).map Prod.fst).Nodup →
      ∀ res : List (String × String),
        getAllIntegrationActions pages fuel = Except.ok res →
        ∀ id nm, ((id, nm) ∈ res ↔
          ∃ a ∈ fetchedEntities pages n, a.id = id ∧ a.name = nm ∧
            a.id.startsWith "static" = false)) ∧
    (∀ cs : List OAuthClientEntity,
      ((cs.filterMap oauthClientEntry).map Prod.fst).Nodup →
      ∀ res : List (String × String),
        getAllOAuthClients (Except.ok (some cs)) = Except.ok res →
        ∀ id nm, ((id, nm) ∈ res ↔
          ∃ c ∈ cs, c.id = id ∧ c.name = nm ∧ c.state ≠ some "disabled")) ∧
    (∀ (pages : Nat → Except String (Option (List PhoneEntity))) (n fuel : Nat),
      n < fuel →
      (pages (1 + n) = Except.ok none ∨ pages (1 + n) = Except.ok (some [])) →
      (∀ k, k < n → ∃ es, pages (1 + k) = Except.ok (some es) ∧ es ≠ []) →
      (((fetchedEntities pages n).filterMap phoneEntry).map Prod.fst).Nodup →
      ∀ res : List (String × String),
        getAllPhones pages fuel = Except.ok res →
        ∀ id nm, ((id, nm) ∈ res ↔
          ∃ p ∈ fetchedEntities pages n, p.id = id ∧ p.name = nm ∧
            p.state ≠ "deleted")) := by
  refine ⟨?_, ?_, ?_⟩
  · intro pages n fuel hfuel hstop hpages hkeys res heq id nm
    have hrun := (getAllPaged_run pages actionEntry
      "Failed to get page of integration actions: " n fuel hfuel hstop hpages hkeys).1
    unfold getAllIntegrationActions at heq
    rw [heq, Except.ok.injEq] at hrun
    subst hrun
    simp [List.mem_filterMap, actionEntry_eq_some]
  · intro cs hkeys res heq id nm
    have hres : res = cs.filterMap oauthClientEntry := by
      have hstep : pageStep oauthClientEntry cs [] = [] ++ cs.filterMap oauthClientEntry :=
        pageStep_run oauthClientEntry cs [] hkeys (by intro kv _; simp)
      simp only [getAllOAuthClients, Except.ok.injEq] at heq
      rw [← heq, hstep]
      simp
    subst hres
    simp [List.mem_filterMap, oauthClientEntry_eq_some]
  · intro pages n fuel hfuel hstop hpages hkeys res heq id nm
    have hrun := (getAllPaged_run pages phoneEntry
      "Failed to get page of phones: " n fuel hfuel hstop hpages hkeys).1
    unfold getAllPhones at heq
    rw [heq, Except.ok.injEq] at hrun
    subst hrun
    simp [List.mem_filterMap, phoneEntry_eq_some]

/-- OAuth clients used by the exclusion witness: one active, one disabled by
support. -/
def oauthClientsW : List OAuthClientEntity :=
  [{ id := "c1", name := "Client One", state := some "active" },
   { id := "c2", name := "Client Two", state := some "disabled" }]

/-- Witness for C5: the active client is listed, the disabled one is not. -/
theorem claim_c5_exclusions_witness :
    ("c1", "Client One") ∈ pageStep oauthClientEntry oauthClientsW [] ∧
    ("c2", "Client Two") ∉ pageStep oauthClientEntry oauthClientsW [] := by
  have h := claim_c5_exclusions.2.1 oauthClientsW (by decide)
    (pageStep oauthClientEntry oauthClientsW []) rfl
  refine ⟨?_, by decide⟩
  exact (h "c1" "Client One").mpr
    ⟨{ id := "c1", name := "Client One", state := some "active" },
      by decide, rfl, rfl, by decide⟩

/-- Entity listed by a name-filtered search (routing queue or schedule
group). -/
structure NamedEntity where
  id : String
  name : String
  deriving DecidableEq

/-- Result of one attempt of a data-source lookup callback: an id was bound,
or the attempt is retryable or non-retryable. -/
inductive LookupStep where
  | bound (id : String)
  | retryable (msg : String)
  | nonRetryable (msg : String)
  deriving DecidableEq

/-- Inner page loop of dataSourceRoutingQueueRead: scan successive pages of
the name-filtered queue query; a request error is non-retryable, an absent
or empty page means the queue is not yet indexed (retryable), and the first
entity whose name equals the requested name exactly is bound.  The page
fuel only bounds the recursion and is not reached while some page within it
is empty. -/
def queueLookupGo (pages : Nat → Except String (Option (List NamedEntity)))
    (name : String) : Nat → Nat → LookupStep
  | _, 0 => LookupStep.retryable "page budget exhausted"
  | p, fuel + 1 =>
    match pages p with
    | Except.error m =>
      LookupStep.nonRetryable ("Error requesting queue " ++ name ++ ": " ++ m)
    | Except.ok none => LookupStep.retryable ("No routing queues found with name " ++ name)
    | Except.ok (some es) =>
      if es.isEmpty then LookupStep.retryable ("No routing queues found with name " ++ name)
      else
        match es.find? (fun q => q.name == name) with
        | some q => LookupStep.bound q.id
        | none => queueLookupGo pages name (p + 1) fuel

/-- Modelled from the spec: withRetries applied to a data-source lookup (the
helper is not among the given source files).  The bounded retry loop maps
the lookup callback over successive attempts until an id is bound, a
non-retryable error occurs, or the timeout elapses. -/
def withRetriesLookupGo (step : Nat → LookupStep) : Nat → Nat → OpResult × Option String
  | _, 0 => (OpResult.retryExhausted, none)
  | a, fuel + 1 =>
    match step a with
    | LookupStep.bound id => (OpResult.ok, some id)
    | LookupStep.nonRetryable m => (OpResult.err m, none)
    | LookupStep.retryable _ => withRetriesLookupGo step (a + 1) fuel

/-- dataSourceRoutingQueueRead: retry the name-filtered paged search within
the 15 second budget; the server oracle answers attempt a, page p. -/
def dataSourceRoutingQueueRead
    (srv : Nat → Nat → Except String (Option (List NamedEntity)))
    (name : String) (pageFuel : Nat) : OpResult × Option String :=
  withRetriesLookupGo (fun a => queueLookupGo (srv a) name 1 pageFuel) 0 15

/-- One attempt of dataSourceScheduleGroupRead: query page 1 of the
name-filtered schedule groups and bind the first listed entity. -/
def scheduleGroupLookup (resp : Except String (Option (List NamedEntity)))
    (name : String) : LookupStep :=
  match resp with
  | Except.error m =>
    LookupStep.nonRetryable ("Error requesting schedule group " ++ name ++ ": " ++ m)
  | Except.ok none => LookupStep.retryable ("No schedule groups found with name " ++ name)
  | Except.ok (some es) =>
    match es with
    | [] => LookupStep.retryable ("No schedule groups found with name " ++ name)
    | g :: _ => LookupStep.bound g.id

/-- dataSourceScheduleGroupRead: retry the name-filtered query within the
15 second budget; the server oracle answers attempt a. -/
def dataSourceScheduleGroupRead
    (srv : Nat → Except String (Option (List NamedEntity)))
    (name : String) : OpResult × Option String :=
  withRetriesLookupGo (fun a => scheduleGroupLookup (srv a) name) 0 15

lemma withRetriesLookupGo_all_retryable (step : Nat → LookupStep)
    (h : ∀ a, ∃ m, step a = LookupStep.retryable m) :
    ∀ (fuel a : Nat), withRetriesLookupGo step a fuel = (OpResult.retryExhausted, none) := by
  intro fuel
  induction fuel with
  | zero => intro a; rfl
  | succ f ih =>
    intro a
    obtain ⟨m, hm⟩ := h a
    simp only [withRetriesLookupGo, hm]
    exact ih (a + 1)

lemma withRetriesLookupGo_bound_inv (step : Nat → LookupStep) :
    ∀ (fuel a : Nat) (id : String),
      withRetriesLookupGo step a fuel = (OpResult.ok, some id) →
      ∃ j, step j = LookupStep.bound id := by
  intro fuel
  induction fuel with
  | zero =>
    intro a id h
    simp only [withRetriesLookupGo, Prod.mk.injEq] at h
    cases h.1
  | succ f ih =>
    intro a id h
    rcases hs : step a with id2 | m | m
    · simp only [withRetriesLookupGo, hs, Prod.mk.injEq, Option.some.injEq] at h
      exact ⟨a, by rw [hs, h.2]⟩
    · simp only [withRetriesLookupGo, hs] at h
      exact ih (a + 1) id h
    · simp only [withRetriesLookupGo, hs, Prod.mk.injEq] at h
      cases h.1

lemma queueLookupGo_bound_inv (pages : Nat → Except String (Option (List NamedEntity)))
    (name : String) :
    ∀ (fuel p : Nat) (id : String),
      queueLookupGo pages name p fuel = LookupStep.bound id →
      ∃ p2 es q, pages p2 = Except.ok (some es) ∧ q ∈ es ∧ q.name = name ∧ q.id = id := by
  intro fuel
  induction fuel with
  | zero => intro p id h; cases h
  | succ f ih =>
    intro p id h
    rcases hp : pages p with m | op
    · simp [queueLookupGo, hp] at h
    · cases op with
      | none => simp [queueLookupGo, hp] at h
      | some es =>
        by_cases hemp : es.isEmpty = true
        · simp [queueLookupGo, hp, hemp] at h
        · have hempf : es.isEmpty = false := by simpa using hemp
          rcases hf : es.find? (fun q => q.name == name) with _ | q
          · simp only [queueLookupGo, hp, hempf, Bool.false_eq_true, if_false, hf] at h
            exact ih (p + 1) id h
          · simp only [queueLookupGo, hp, hempf, Bool.false_eq_true, if_false, hf,
              LookupStep.bound.injEq] at h
            refine ⟨p, es, q, hp, List.mem_of_find?_eq_some hf, ?_, h⟩
            have := List.find?_some hf
            simpa using this

/-- Schedule group server whose only listed entity bears a different name
than the requested one. -/
def scheduleSrvMismatch : Nat → Except String (Option (List NamedEntity)) :=
  fun _ => Except.ok (some [{ id := "sg1", name := "Other Group" }])

/-- C8 counterexample: the schedule group data source binds the id of the
first listed entity without checking that its name equals the requested
name; on a query result whose only entity is named Other Group, a lookup
for Wanted Group still binds that id. -/
theorem claim_c8_counterexample_schedule_group :
    dataSourceScheduleGroupRead scheduleSrvMismatch "Wanted Group" =
      (OpResult.ok, some "sg1") ∧
    (∀ e ∈ [({ id := "sg1", name := "Other Group" } : NamedEntity)],
      e.name ≠ "Wanted Group") :=
  ⟨rfl, by decide⟩

/-- C8 amended: the routing queue data source binds only the id of an
entity whose name equals the requested name exactly, retrying within the
15 second bound while the search returns no entities; the schedule group
data source instead binds the id of the first entity of the name-filtered
query result without verifying exact name equality. -/
theorem claim_c8_amended_lookup :
    (∀ (srv : Nat → Nat → Except String (Option (List NamedEntity)))
      (name : String) (pageFuel : Nat) (id : String),
      dataSourceRoutingQueueRead srv name pageFuel = (OpResult.ok, some id) →
      ∃ a p es q, srv a p = Except.ok (some es) ∧ q ∈ es ∧ q.name = name ∧ q.id = id) ∧
    (∀ (srv : Nat → Nat → Except String (Option (List NamedEntity)))
      (name : String) (pageFuel : Nat),
      (∀ a p, srv a p = Except.ok none) →
      dataSourceRoutingQueueRead srv name pageFuel = (OpResult.retryExhausted, none)) ∧
    (∀ (srv : Nat → Except String (Option (List NamedEntity))) (name : String)
      (g : NamedEntity) (rest : List NamedEntity),
      srv 0 = Except.ok (some (g :: rest)) →
      dataSourceScheduleGroupRead srv name = (OpResult.ok, some g.id)) ∧
    (∀ (srv : Nat → Except String (Option (List NamedEntity))) (name : String),
      (∀ a, srv a = Except.ok none) →
      dataSourceScheduleGroupRead srv name = (OpResult.retryExhausted, none)) := by
  refine ⟨?_, ?_, ?_, ?_⟩
  · intro srv name pageFuel id h
    obtain ⟨j, hj⟩ := withRetriesLookupGo_bound_inv
      (fun a => queueLookupGo (srv a) name 1 pageFuel) 15 0 id h
    obtain ⟨p2, es, q, hp, hq, hname, hid⟩ :=
      queueLookupGo_bound_inv (srv j) name pageFuel 1 id hj
    exact ⟨j, p2, es, q, hp, hq, hname, hid⟩
  · intro srv name pageFuel hempty
    apply withRetriesLookupGo_all_retryable
    intro a
    cases pageFuel with
    | zero => exact ⟨"page budget exhausted", rfl⟩
    | succ f =>
      exact ⟨"No routing queues found with name " ++ name, by
        simp [queueLookupGo, hempty a 1]⟩
  · intro srv name g rest h0
    simp [dataSourceScheduleGroupRead, withRetriesLookupGo, scheduleGroupLookup, h0]
  · intro srv name hempty
    apply withRetriesLookupGo_all_retryable
    intro a
    exact ⟨"No schedule groups found with name " ++ name, by
      simp [scheduleGroupLookup, hempty a]⟩

/-- Routing queue server whose search never returns an entity. -/
def routingEmptySrv : Nat → Nat → Except String (Option (List NamedEntity)) :=
  fun _ _ => Except.ok none

/-- Schedule group server listing exactly the requested group. -/
def scheduleSrvW : Nat → Except String (Option (List NamedEntity)) :=
  fun _ => Except.ok (some [{ id := "sg2", name := "Target Group" }])

/-- Witness for the amended C8 at concrete servers. -/
theorem claim_c8_amended_lookup_witness :
    dataSourceRoutingQueueRead routingEmptySrv "Queue A" 3 =
      (OpResult.retryExhausted, none) ∧
    dataSourceScheduleGroupRead scheduleSrvW "Target Group" =
      (OpResult.ok, some "sg2") :=
  ⟨claim_c8_amended_lookup.2.1 routingEmptySrv "Queue A" 3 (fun _ _ => rfl),
   claim_c8_amended_lookup.2.2.1 scheduleSrvW "Target Group"
     { id := "sg2", name := "Target Group" } [] rfl⟩
